import Mathlib

/-
Shallow embedding of the notes-page client logic (course-code parsing,
cascading subject/number filter, pagination) of this repository.

JavaScript strings are modelled as `List Char` (`Str`); JavaScript string
truthiness (`""` is falsy) is modelled explicitly.  The two source variants
are embedded side by side: the flat-list variant (static/notes-page.js),
whose `parseClasses` derives the index from the global `CLASSES` array, and
the structured variant (the unnamed file), whose `parseClasses` returns the
server-supplied `COURSES_DICT` / `SUBJECTS` globals directly.
-/

set_option maxRecDepth 40000

abbrev Str := List Char

/-- Character class `[A-Z]` of the course-code regular expression. -/
def isUpperAZ (c : Char) : Bool := decide ('A' ≤ c) && decide (c ≤ 'Z')

/-- Character class `\d` (`[0-9]`) of the course-code regular expression. -/
def isDigit09 (c : Char) : Bool := decide ('0' ≤ c) && decide (c ≤ '9')

/-- Whitespace skipped by `parseInt` and `JSON.parse` (space, tab, LF, CR). -/
def isSpaceWS (c : Char) : Bool :=
  decide (c = ' ') || decide (c = '\t') || decide (c = '\n') || decide (c = '\r')

/-- JavaScript string truthiness: the empty string is falsy. -/
def jsTruthy (s : Str) : Bool := !s.isEmpty

/-- Numeric value of a string of decimal digits (most significant first). -/
def digitsToNat (ds : Str) : Nat :=
  ds.foldl (fun a c => a * 10 + (c.toNat - '0'.toNat)) 0

/-- Number of halvings needed to bring `n` under 2^53, i.e. how many bits
`n` has beyond the 53-bit significand of an IEEE-754 binary64 value; `fuel`
(instantiated with `n` itself, an upper bound on the bit count) only makes
the recursion structural. -/
def excessBits : Nat → Nat → Nat
  | 0, _ => 0
  | fuel + 1, n => if n < 2 ^ 53 then 0 else excessBits fuel (n / 2) + 1

/-- The integer `n` rounded to 53 significant bits with round-to-nearest,
ties to even — the value of `n` as an IEEE-754 binary64 number, computed
with an unbounded exponent. -/
def roundDouble (n : Nat) : Nat :=
  if excessBits n n = 0 then n
  else
    (if n % 2 ^ excessBits n n < 2 ^ (excessBits n n - 1) then n / 2 ^ excessBits n n
     else if 2 ^ (excessBits n n - 1) < n % 2 ^ excessBits n n then n / 2 ^ excessBits n n + 1
     else if (n / 2 ^ excessBits n n) % 2 = 0 then n / 2 ^ excessBits n n
     else n / 2 ^ excessBits n n + 1) * 2 ^ excessBits n n

/-- The nonnegative integer `n` as a JavaScript number: rounded to the
nearest binary64 value, with every overflowing value collapsed to 2^1024,
which stands for `Infinity` (IEEE-754 overflows to `Infinity` exactly when
the round-to-nearest result with unbounded exponent reaches 2^1024). -/
def jsDouble (n : Nat) : Nat := min (roundDouble n) (2 ^ 1024)

/-- Core of `parseInt` after whitespace trimming: optional sign, then the
longest run of decimal digits, whose mathematical value is returned as the
nearest binary64 value (JavaScript numbers are doubles, so digit strings
beyond 2^53 lose their low bits); `none` models `NaN`. -/
def jsParseIntCore (t : Str) : Option Int :=
  match t with
  | '-' :: r =>
      if (r.takeWhile isDigit09).isEmpty then none
      else some (-(jsDouble (digitsToNat (r.takeWhile isDigit09)) : Int))
  | '+' :: r =>
      if (r.takeWhile isDigit09).isEmpty then none
      else some ((jsDouble (digitsToNat (r.takeWhile isDigit09)) : Int))
  | t =>
      if (t.takeWhile isDigit09).isEmpty then none
      else some ((jsDouble (digitsToNat (t.takeWhile isDigit09)) : Int))

/-- JavaScript `parseInt(s)` restricted to base 10: skip leading whitespace,
then parse a signed run of decimal digits into a binary64 value. -/
def jsParseInt (s : Str) : Option Int := jsParseIntCore (s.dropWhile isSpaceWS)

/-- Sort key used by the comparator `(a, b) => parseInt(a) - parseInt(b)`:
the binary64 value `parseInt` produces.  Two `Infinity` results compare
equal (their key is the shared 2^1024), matching the specified sort
behaviour (`Infinity - Infinity` is `NaN`, which the sort treats as a tie).
The `NaN` case for non-numeric strings is mapped to 0; it is never
exercised by the digit strings the index stores. -/
def jsKey (s : Str) : Int := (jsParseInt s).getD 0

/-- Ordering of number strings by the numeric comparator of the source. -/
def NumLe (a b : Str) : Prop := jsKey a ≤ jsKey b

instance : DecidableRel NumLe := fun a b => inferInstanceAs (Decidable (jsKey a ≤ jsKey b))

instance : IsTotal Str NumLe := ⟨fun a b => Int.le_total (jsKey a) (jsKey b)⟩

instance : IsTrans Str NumLe := ⟨fun _ _ _ h h2 => Int.le_trans h h2⟩

/-- The in-place numeric sort `numbers.sort((a, b) => parseInt(a) - parseInt(b))`
(JavaScript's sort is stable; insertion sort models it). -/
def sortNumbers (ns : List Str) : List Str := ns.insertionSort NumLe

/-- Comparison of digit strings by their numeric value (the order the spec
says number strings are presented in). -/
def digitLe (a b : Str) : Prop := digitsToNat a ≤ digitsToNat b

instance : DecidableRel digitLe :=
  fun a b => inferInstanceAs (Decidable (digitsToNat a ≤ digitsToNat b))

/-- The regular expression `^([A-Z]+)(\d+)$` applied to a string: the greedy letter group is the
maximal uppercase run, the digit group is the rest, which must be nonempty
and all digits for the anchored match to succeed. -/
def matchCourseCode (s : Str) : Option (Str × Str) :=
  let subject := s.takeWhile isUpperAZ
  let number := s.dropWhile isUpperAZ
  if subject.isEmpty || number.isEmpty || !number.all isDigit09 then none
  else some (subject, number)

/-- First-match lookup in an association list, modelling `obj[key]`. -/
def lookupAssoc (d : List (Str × List Str)) (k : Str) : Option (List Str) :=
  match d with
  | [] => none
  | (k2, v) :: rest => if k2 = k then some v else lookupAssoc rest k

/-- Keys of an association list in stored order. -/
def keysOf (d : List (Str × List Str)) : List Str := d.map (·.1)

/-- Model of `if (!obj[s]) obj[s] = []; obj[s].push(n)` on association lists. -/
def assocAppend (d : List (Str × List Str)) (s n : Str) : List (Str × List Str) :=
  match d with
  | [] => [(s, [n])]
  | (k, v) :: rest => if k = s then (k, v ++ [n]) :: rest else (k, v) :: assocAppend rest s n

/-- Replace the value stored under the first occurrence of key `k`. -/
def assocSet (d : List (Str × List Str)) (k : Str) (v : List Str) : List (Str × List Str) :=
  match d with
  | [] => []
  | (k2, w) :: rest => if k2 = k then (k2, v) :: rest else (k2, w) :: assocSet rest k v

/-- Model of `Set.prototype.add` on the insertion-ordered list view of a JS `Set`. -/
def addToSet (l : List Str) (x : Str) : List Str := if x ∈ l then l else l ++ [x]

/-- The course index derived by `parseClasses`:
`{ subjects: Array, classesBySubject: Object }`. -/
structure CourseIndex where
  subjects : List Str
  classesBySubject : List (Str × List Str)
deriving DecidableEq

/-- One step of the `CLASSES.forEach` loop of the flat-list `parseClasses`. -/
def parseClassesStep (acc : List Str × List (Str × List Str)) (cls : Str) :
    List Str × List (Str × List Str) :=
  match matchCourseCode cls with
  | some (subject, number) => (addToSet acc.1 subject, assocAppend acc.2 subject number)
  | none => acc

/-- Flat-list `parseClasses` (static/notes-page.js): scan `CLASSES`, collect
subjects into a `Set`, group digit suffixes by subject, then
`Array.from(subjects).sort()` (default lexicographic comparator). -/
def parseClasses (classes : List Str) : CourseIndex :=
  let acc := classes.foldl parseClassesStep ([], [])
  ⟨acc.1.insertionSort (· ≤ ·), acc.2⟩

/-- An `<option>` element of a select dropdown. -/
structure SelOpt where
  value : Str
  text : Str
  selected : Bool
deriving DecidableEq

/-- The sentinel `<option value="">All Numbers</option>`. -/
def allNumbersSentinel : SelOpt := ⟨[], "All Numbers".data, false⟩

/-- The `currentNumber` computed at the top of `updateNumberDropdown`:
nonempty only when `preserveSelection` holds and the current filter is a
truthy string other than `"All"` that matches the course-code pattern. -/
def currentNumberOf (preserveSelection : Bool) (currentFilter : Option Str) : Str :=
  match currentFilter with
  | none => []
  | some f =>
      if preserveSelection && jsTruthy f && !decide (f = "All".data) then
        match matchCourseCode f with
        | some (_, number) => number
        | none => []
      else []

/-- Result of the property read `obj[key]` on an object-literal dictionary:
an own data entry, a truthy value inherited from `Object.prototype`, or
`undefined`. -/
inductive JsProp where
  | own (v : List Str)
  | inherited
  | undef
deriving DecidableEq

/-- The member names of `Object.prototype` (standard methods, the
`__proto__` accessor, and the Annex-B web-legacy accessors); reading any of
them on a plain object yields a truthy function or object. -/
def objectPrototypeKeys : List Str :=
  ["constructor".data, "hasOwnProperty".data, "isPrototypeOf".data,
   "propertyIsEnumerable".data, "toLocaleString".data, "toString".data,
   "valueOf".data, "__proto__".data, "__defineGetter__".data,
   "__defineSetter__".data, "__lookupGetter__".data, "__lookupSetter__".data]

/-- The property read `obj[key]`: an own key yields its stored array (JSON
objects, including a `"__proto__"` key, create own data properties); an
absent key falls back to the prototype chain — a truthy inherited member
for the `Object.prototype` names, `undefined` otherwise. -/
def jsIndex (d : List (Str × List Str)) (k : Str) : JsProp :=
  match lookupAssoc d k with
  | some v => JsProp.own v
  | none => if k ∈ objectPrototypeKeys then JsProp.inherited else JsProp.undef

/-- The option list the number dropdown holds after `updateNumberDropdown`
runs against dictionary `d` with the given selected subject: the sentinel,
followed (when a subject is selected) by the numerically sorted numbers of
that subject, `selected` set on entries equal to `currentNumber`.  When the
selected subject resolves to a truthy inherited `Object.prototype` member,
the `|| []` fallback does not apply and `numbers.sort` throws a TypeError;
the result `none` models the handler not completing. -/
def updateNumberDropdownOpts (d : List (Str × List Str)) (selectedSubject : Str)
    (preserveSelection : Bool) (currentFilter : Option Str) : Option (List SelOpt) :=
  let currentNumber := currentNumberOf preserveSelection currentFilter
  if jsTruthy selectedSubject then
    match jsIndex d selectedSubject with
    | JsProp.own ns =>
        some (allNumbersSentinel ::
          (sortNumbers ns).map (fun n => ⟨n, n, decide (n = currentNumber)⟩))
    | JsProp.inherited => none
    | JsProp.undef => some (allNumbersSentinel :: [])
  else some (allNumbersSentinel :: [])

/-- Effect of `updateNumberDropdown` (structured variant) on the stored
`COURSES_DICT`: `classesBySubject[selectedSubject]` is the stored array and
`numbers.sort(...)` sorts it in place, so the entry of the selected subject
is replaced by its numerically sorted permutation. -/
def updateNumberDropdownDict (d : List (Str × List Str)) (selectedSubject : Str) :
    List (Str × List Str) :=
  if jsTruthy selectedSubject then
    match lookupAssoc d selectedSubject with
    | some ns => assocSet d selectedSubject (sortNumbers ns)
    | none => d
  else d

/-- Numbers presented for a subject by the flat-list pipeline: build the
index with `parseClasses`, then take the number options
`updateNumberDropdown` renders for that subject (without the sentinel).
When the read resolves to an inherited `Object.prototype` member the sort
throws before any option is appended, so the dropdown, already reset to the
sentinel, presents no numbers — the empty list. -/
def presentedNumbers (classes : List Str) (subject : Str) : List Str :=
  if jsTruthy subject then
    match jsIndex (parseClasses classes).classesBySubject subject with
    | JsProp.own ns => sortNumbers ns
    | JsProp.inherited => []
    | JsProp.undef => []
  else []

/-- Outcome of a filter interaction: the hidden input's combined value and
whether the form was submitted. -/
structure FilterSubmit where
  combined : Str
  submitted : Bool
deriving DecidableEq

/-- Source `applyClassFilter()`: combine the two dropdown values into the hidden
class filter and submit the form. -/
def applyClassFilter (selectedSubject selectedNumber : Str) : FilterSubmit :=
  if jsTruthy selectedSubject && jsTruthy selectedNumber then
    ⟨selectedSubject ++ selectedNumber, true⟩
  else if jsTruthy selectedSubject then
    ⟨"All".data, true⟩
  else
    ⟨"All".data, true⟩

/-- Source `handleNumberChange()`: with no number but a subject selected, set the
filter to `"All"` and submit; otherwise defer to `applyClassFilter`. -/
def handleNumberChange (subjectValue numberValue : Str) : FilterSubmit :=
  if !(jsTruthy numberValue) && jsTruthy subjectValue then
    ⟨"All".data, true⟩
  else
    applyClassFilter subjectValue numberValue

/-- Client-side state touched by `loadMore`: the page counter, the children
of `#notes-container`, the visibility of the `#load-more` control, and the
console log (the only channel failures are reported to). -/
structure NotesPageState where
  currentPage : Int
  container : List Str
  loadMoreVisible : Bool
  consoleLog : List Str
deriving DecidableEq

/-- A successfully decoded response body `{ html, has_more }`. -/
structure FetchData where
  html : Str
  hasMore : Bool
deriving DecidableEq

/-- Source `loadMore()`: increment `currentPage`, request that page (`none` models
network failure, a non-2xx status, or an undecodable body, all of which land
in the `catch`), then on success append the fragment and hide the load-more
control when `has_more` is false.  Returns the new state and the page number
sent with the request. -/
def loadMore (st : NotesPageState) (response : Option FetchData) : NotesPageState × Int :=
  let page := st.currentPage + 1
  let st2 := { st with currentPage := page }
  match response with
  | none =>
      ({ st2 with consoleLog := st2.consoleLog ++ ["Failed to load more notes".data] }, page)
  | some d =>
      let st3 := { st2 with container := st2.container ++ [d.html] }
      (if d.hasMore then st3 else { st3 with loadMoreVisible := false }, page)

/-- Opening brace character, code point 123. -/
def lbrace : Char := Char.ofNat 123

/-- Closing brace character, code point 125. -/
def rbrace : Char := Char.ofNat 125

/-- Skip JSON whitespace. -/
def skipWs (s : Str) : Str := s.dropWhile isSpaceWS

/-- Body of a JSON string literal after the opening quote: content up to the
closing quote and the remaining input.  Escape sequences are outside this
model (`none`); none occur in course codes or the default literals. -/
def jsonStrAux : Str → Option (Str × Str)
  | [] => none
  | '\\' :: _ => none
  | '"' :: rest => some ([], rest)
  | c :: rest =>
      match jsonStrAux rest with
      | some (acc, r) => some (c :: acc, r)
      | none => none

/-- A JSON scalar as the source uses them: a string literal or a nonnegative
integer literal, both returned as their character content. -/
def jsonScalar (s : Str) : Option (Str × Str) :=
  match s with
  | '"' :: rest => jsonStrAux rest
  | _ =>
      let ds := s.takeWhile isDigit09
      if ds.isEmpty then none else some (ds, s.dropWhile isDigit09)

/-- Comma-separated scalars of a nonempty JSON array, up to the closing
bracket; `fuel` bounds the recursion by the input length. -/
def jsonItemsAux : Nat → Str → Option (List Str × Str)
  | 0, _ => none
  | fuel + 1, s =>
      match jsonScalar s with
      | none => none
      | some (v, r) =>
          match skipWs r with
          | ']' :: r2 => some ([v], r2)
          | ',' :: r2 =>
              match jsonItemsAux fuel (skipWs r2) with
              | some (vs, r3) => some (v :: vs, r3)
              | none => none
          | _ => none

/-- Parse a JSON array of scalars. -/
def jsonParseArray (s : Str) : Option (List Str × Str) :=
  match skipWs s with
  | '[' :: rest =>
      match skipWs rest with
      | ']' :: r2 => some ([], r2)
      | r => jsonItemsAux (r.length + 1) r
  | _ => none

/-- Comma-separated `"key": [array]` pairs of a nonempty JSON object, up to
the closing brace. -/
def jsonPairsAux : Nat → Str → Option (List (Str × List Str) × Str)
  | 0, _ => none
  | fuel + 1, s =>
      match s with
      | '"' :: rest =>
          match jsonStrAux rest with
          | some (k, r) =>
              match skipWs r with
              | ':' :: r2 =>
                  match jsonParseArray r2 with
                  | some (v, r3) =>
                      match skipWs r3 with
                      | c :: r4 =>
                          if c = rbrace then some ([(k, v)], r4)
                          else if c = ',' then
                            match jsonPairsAux fuel (skipWs r4) with
                            | some (ps, r5) => some ((k, v) :: ps, r5)
                            | none => none
                          else none
                      | [] => none
                  | none => none
              | _ => none
          | none => none
      | _ => none

/-- Parse a JSON object mapping strings to arrays of scalars. -/
def jsonParseObj (s : Str) : Option (List (Str × List Str) × Str) :=
  match skipWs s with
  | c :: rest =>
      if c = lbrace then
        match skipWs rest with
        | c2 :: r2 =>
            if c2 = rbrace then some ([], r2)
            else jsonPairsAux (r2.length + 2) (c2 :: r2)
        | [] => none
      else none
  | [] => none

/-- Model of `JSON.parse` on a complete array-of-scalars document. -/
def jsonParseStrList (s : Str) : Option (List Str) :=
  match jsonParseArray s with
  | some (vs, r) => if (skipWs r).isEmpty then some vs else none
  | none => none

/-- Model of `JSON.parse` on a complete object document. -/
def jsonParseDict (s : Str) : Option (List (Str × List Str)) :=
  match jsonParseObj s with
  | some (ps, r) => if (skipWs r).isEmpty then some ps else none
  | none => none

/-- Default substitution `attr || dflt` on a possibly absent data attribute (`undefined` and the
empty string are both falsy). -/
def jsOr (v : Option Str) (dflt : Str) : Str :=
  match v with
  | some s => if s.isEmpty then dflt else s
  | none => dflt

/-- The data attributes the flat-list variant's `DOMContentLoaded` handler
reads off `#page-data`. -/
structure DatasetStatic where
  page : Option Str
  classes : Option Str
  selectedFilter : Option Str

/-- Arguments the flat-list variant passes to `initializePage`. -/
structure InitStatic where
  initialPage : Option Int
  classes : List Str
  selectedFilter : Str
deriving DecidableEq

/-- Flat-list `DOMContentLoaded` handler: substitute defaults for absent
attributes (`'1'`, `'[]'`, `'All'`), then `parseInt` / `JSON.parse` them;
`none` models the handler throwing (only `JSON.parse` can throw here). -/
def domContentLoadedStatic (ds : DatasetStatic) : Option InitStatic :=
  match jsonParseStrList (jsOr ds.classes "[]".data) with
  | some cls => some ⟨jsParseInt (jsOr ds.page "1".data), cls, jsOr ds.selectedFilter "All".data⟩
  | none => none

/-- The data attributes the structured variant's handler reads. -/
structure DatasetStructured where
  page : Option Str
  classes : Option Str
  coursesDict : Option Str
  subjects : Option Str
  selectedFilter : Option Str

/-- Arguments the structured variant passes to `initializePage`. -/
structure InitStructured where
  initialPage : Option Int
  classes : List Str
  coursesDict : List (Str × List Str)
  subjects : List Str
  selectedFilter : Str
deriving DecidableEq

/-- Structured `DOMContentLoaded` handler: defaults `'1'`, `'[]'`,
`'\x7b\x7d'`, `'[]'`, `'All'` for absent attributes, then parse. -/
def domContentLoadedStructured (ds : DatasetStructured) : Option InitStructured :=
  match jsonParseStrList (jsOr ds.classes "[]".data),
        jsonParseDict (jsOr ds.coursesDict "\x7b\x7d".data),
        jsonParseStrList (jsOr ds.subjects "[]".data) with
  | some cls, some dict, some subs =>
      some ⟨jsParseInt (jsOr ds.page "1".data), cls, dict, subs,
            jsOr ds.selectedFilter "All".data⟩
  | _, _, _ => none

/-!  Helper lemmas. -/

theorem digit_not_upper {c : Char} (h : isDigit09 c = true) : isUpperAZ c = false := by
  unfold isDigit09 at h
  unfold isUpperAZ
  simp only [Bool.and_eq_true, decide_eq_true_eq] at h
  by_contra hc
  simp only [Bool.not_eq_false, Bool.and_eq_true, decide_eq_true_eq] at hc
  exact absurd (le_trans hc.1 h.2) (by decide)

theorem digit_not_space {c : Char} (h : isDigit09 c = true) : isSpaceWS c = false := by
  by_contra hc
  simp only [Bool.not_eq_false, isSpaceWS, Bool.or_eq_true, decide_eq_true_eq] at hc
  rcases hc with ((rfl | rfl) | rfl) | rfl <;> simp [isDigit09] at h

theorem takeWhile_append_all {p : Char → Bool} :
    ∀ (a b : Str), a.all p = true → (∀ c, b.head? = some c → p c = false) →
      (a ++ b).takeWhile p = a := by
  intro a
  induction a with
  | nil =>
      intro b _ hb
      cases b with
      | nil => rfl
      | cons c r =>
          simp only [List.nil_append, List.takeWhile]
          rw [hb c rfl]
  | cons x xs ih =>
      intro b ha hb
      simp only [List.all_cons, Bool.and_eq_true] at ha
      simp only [List.cons_append, List.takeWhile, ha.1, List.append_eq]
      rw [ih b ha.2 hb]

theorem dropWhile_append_all {p : Char → Bool} :
    ∀ (a b : Str), a.all p = true → (∀ c, b.head? = some c → p c = false) →
      (a ++ b).dropWhile p = b := by
  intro a
  induction a with
  | nil =>
      intro b _ hb
      cases b with
      | nil => rfl
      | cons c r =>
          simp only [List.nil_append, List.dropWhile]
          rw [hb c rfl]
  | cons x xs ih =>
      intro b ha hb
      simp only [List.all_cons, Bool.and_eq_true] at ha
      simp only [List.cons_append, List.dropWhile, ha.1, List.append_eq]
      exact ih b ha.2 hb

theorem matchCourseCode_append {a b : Str} (ha1 : a ≠ []) (ha2 : a.all isUpperAZ = true)
    (hb1 : b ≠ []) (hb2 : b.all isDigit09 = true) :
    matchCourseCode (a ++ b) = some (a, b) := by
  have hbh : ∀ c, b.head? = some c → isUpperAZ c = false := by
    intro c hc
    have hcm : c ∈ b := by
      cases b with
      | nil => simp at hc
      | cons x r => simp only [List.head?] at hc; injection hc with h; exact h ▸ List.mem_cons_self x r
    exact digit_not_upper (by
      rw [List.all_eq_true] at hb2
      exact hb2 c hcm)
  unfold matchCourseCode
  rw [takeWhile_append_all a b ha2 hbh, dropWhile_append_all a b ha2 hbh]
  have h1 : a.isEmpty = false := by simp [List.isEmpty_iff, ha1]
  have h2 : b.isEmpty = false := by simp [List.isEmpty_iff, hb1]
  simp [h1, h2, hb2]

theorem matchCourseCode_some {c s n : Str} (h : matchCourseCode c = some (s, n)) :
    s = c.takeWhile isUpperAZ ∧ n = c.dropWhile isUpperAZ ∧ s ≠ [] ∧ n ≠ [] ∧
      n.all isDigit09 = true ∧ s ++ n = c := by
  unfold matchCourseCode at h
  by_cases hg : (c.takeWhile isUpperAZ).isEmpty || (c.dropWhile isUpperAZ).isEmpty
      || !(c.dropWhile isUpperAZ).all isDigit09
  · rw [if_pos hg] at h; exact absurd h (by simp)
  · rw [if_neg hg] at h
    injection h with h2
    injection h2 with hs hn
    subst hs
    subst hn
    simp only [Bool.or_eq_true, Bool.not_eq_true', List.isEmpty_iff, not_or] at hg
    exact ⟨rfl, rfl, hg.1.1, hg.1.2, by simpa using hg.2,
      List.takeWhile_append_dropWhile _ _⟩

theorem lookupAssoc_mem {d : List (Str × List Str)} {k : Str} {v : List Str}
    (h : lookupAssoc d k = some v) : (k, v) ∈ d := by
  induction d with
  | nil => simp [lookupAssoc] at h
  | cons kv rest ih =>
      obtain ⟨k2, w⟩ := kv
      unfold lookupAssoc at h
      by_cases hk : k2 = k
      · rw [if_pos hk] at h
        injection h with hv
        subst hk
        subst hv
        exact List.mem_cons_self _ _
      · rw [if_neg hk] at h
        exact List.mem_cons_of_mem _ (ih h)

theorem assocAppend_values {P : Str → Prop} :
    ∀ (d : List (Str × List Str)) (s n : Str),
      (∀ kv ∈ d, ∀ x ∈ kv.2, P x) → P n →
      ∀ kv ∈ assocAppend d s n, ∀ x ∈ kv.2, P x := by
  intro d
  induction d with
  | nil =>
      intro s n _ hn kv hkv x hx
      simp only [assocAppend, List.mem_singleton] at hkv
      subst hkv
      simp only [List.mem_singleton] at hx
      subst hx
      exact hn
  | cons hd rest ih =>
      intro s n hall hn kv hkv x hx
      obtain ⟨k, v⟩ := hd
      unfold assocAppend at hkv
      by_cases hk : k = s
      · rw [if_pos hk] at hkv
        rcases List.mem_cons.mp hkv with rfl | hm
        · rcases List.mem_append.mp hx with hxv | hxn
          · exact hall (k, v) (List.mem_cons_self _ _) x hxv
          · simp only [List.mem_singleton] at hxn
            subst hxn
            exact hn
        · exact hall kv (List.mem_cons_of_mem _ hm) x hx
      · rw [if_neg hk] at hkv
        rcases List.mem_cons.mp hkv with rfl | hm
        · exact hall (k, v) (List.mem_cons_self _ _) x hx
        · exact ih s n (fun kv2 h2 => hall kv2 (List.mem_cons_of_mem _ h2)) hn kv hm x hx

theorem parseClasses_foldl_values :
    ∀ (classes : List Str) (acc : List Str × List (Str × List Str)),
      (∀ kv ∈ acc.2, ∀ x ∈ kv.2, x ≠ [] ∧ x.all isDigit09 = true) →
      ∀ kv ∈ (classes.foldl parseClassesStep acc).2, ∀ x ∈ kv.2,
        x ≠ [] ∧ x.all isDigit09 = true := by
  intro classes
  induction classes with
  | nil =>
      intro acc h
      simpa using h
  | cons c rest ih =>
      intro acc h
      rw [List.foldl_cons]
      apply ih
      intro kv hkv x hx
      cases hm : matchCourseCode c with
      | none =>
          simp only [parseClassesStep, hm] at hkv
          exact h kv hkv x hx
      | some p =>
          obtain ⟨s, n⟩ := p
          simp only [parseClassesStep, hm] at hkv
          have hn := matchCourseCode_some hm
          exact assocAppend_values acc.2 s n h ⟨hn.2.2.2.1, hn.2.2.2.2.1⟩ kv hkv x hx

theorem parseClasses_values {classes : List Str} {k : Str} {ns : List Str}
    (h : lookupAssoc (parseClasses classes).classesBySubject k = some ns) :
    ∀ n ∈ ns, n ≠ [] ∧ n.all isDigit09 = true := by
  have hmem : (k, ns) ∈ (classes.foldl parseClassesStep ([], [])).2 := lookupAssoc_mem h
  exact fun n hn => parseClasses_foldl_values classes ([], []) (by simp) (k, ns) hmem n hn

theorem all_takeWhile_self {p : Char → Bool} {l : Str} (h : l.all p = true) :
    l.takeWhile p = l :=
  List.takeWhile_eq_self_iff.mpr (fun x hx => (List.all_eq_true.mp h) x hx)

theorem excessBits_small {fuel n : Nat} (h : n < 2 ^ 53) : excessBits fuel n = 0 := by
  cases fuel with
  | zero => rfl
  | succ m =>
      unfold excessBits
      rw [if_pos h]

theorem jsDouble_small {n : Nat} (h : n < 2 ^ 53) : jsDouble n = n := by
  unfold jsDouble roundDouble
  rw [excessBits_small h, if_pos rfl]
  exact min_eq_left (Nat.le_of_lt (Nat.lt_trans h (by norm_num)))

theorem jsParseInt_digits {s : Str} (h1 : s ≠ []) (h2 : s.all isDigit09 = true) :
    jsParseInt s = some ((jsDouble (digitsToNat s) : Int)) := by
  obtain ⟨c, rest, rfl⟩ : ∃ c r, s = c :: r := by
    cases s with
    | nil => exact absurd rfl h1
    | cons c r => exact ⟨c, r, rfl⟩
  have hc : isDigit09 c = true := by
    simp only [List.all_cons, Bool.and_eq_true] at h2
    exact h2.1
  have hdrop : (c :: rest).dropWhile isSpaceWS = c :: rest := by
    unfold List.dropWhile
    rw [digit_not_space hc]
  have htake : (c :: rest).takeWhile isDigit09 = c :: rest := all_takeWhile_self h2
  unfold jsParseInt
  rw [hdrop]
  unfold jsParseIntCore
  split
  · rename_i r heq
    injection heq with hch _
    subst hch
    exact absurd hc (by decide)
  · rename_i r heq
    injection heq with hch _
    subst hch
    exact absurd hc (by decide)
  · rw [htake]
    simp

theorem jsKey_digits {s : Str} (h1 : s ≠ []) (h2 : s.all isDigit09 = true) :
    jsKey s = (jsDouble (digitsToNat s) : Int) := by
  unfold jsKey
  rw [jsParseInt_digits h1 h2]
  rfl

theorem jsIndex_own {d : List (Str × List Str)} {k : Str} {ns : List Str}
    (h : jsIndex d k = JsProp.own ns) : lookupAssoc d k = some ns := by
  unfold jsIndex at h
  cases hlk : lookupAssoc d k with
  | some v =>
      rw [hlk] at h
      injection h with h2
      rw [h2]
  | none =>
      rw [hlk] at h
      by_cases hp : k ∈ objectPrototypeKeys
      · rw [if_pos hp] at h
        exact JsProp.noConfusion h
      · rw [if_neg hp] at h
        exact JsProp.noConfusion h

theorem addToSet_nodup {l : List Str} {x : Str} (h : l.Nodup) : (addToSet l x).Nodup := by
  unfold addToSet
  by_cases hx : x ∈ l
  · rwa [if_pos hx]
  · rw [if_neg hx]
    rw [List.nodup_append]
    refine ⟨h, List.nodup_singleton x, ?_⟩
    intro y hy hy2
    rw [List.mem_singleton] at hy2
    subst hy2
    exact hx hy

theorem parseClasses_foldl_nodup :
    ∀ (classes : List Str) (acc : List Str × List (Str × List Str)),
      acc.1.Nodup → (classes.foldl parseClassesStep acc).1.Nodup := by
  intro classes
  induction classes with
  | nil =>
      intro acc h
      simpa using h
  | cons c rest ih =>
      intro acc h
      rw [List.foldl_cons]
      apply ih
      cases hm : matchCourseCode c with
      | none => simpa [parseClassesStep, hm] using h
      | some p =>
          obtain ⟨s, n⟩ := p
          simp only [parseClassesStep, hm]
          exact addToSet_nodup h

theorem keysOf_assocSet (d : List (Str × List Str)) (k : Str) (v : List Str) :
    keysOf (assocSet d k v) = keysOf d := by
  induction d with
  | nil => rfl
  | cons hd rest ih =>
      obtain ⟨k2, w⟩ := hd
      unfold assocSet
      by_cases hk : k2 = k
      · rw [if_pos hk]
        rfl
      · rw [if_neg hk]
        simp only [keysOf, List.map_cons] at ih ⊢
        rw [ih]

theorem lookupAssoc_assocSet_ne {d : List (Str × List Str)} {k : Str} {v : List Str}
    {k2 : Str} (h : k2 ≠ k) :
    lookupAssoc (assocSet d k v) k2 = lookupAssoc d k2 := by
  induction d with
  | nil => rfl
  | cons hd rest ih =>
      obtain ⟨k3, w⟩ := hd
      unfold assocSet
      by_cases hk : k3 = k
      · rw [if_pos hk]
        subst hk
        unfold lookupAssoc
        rw [if_neg (fun he => h he.symm), if_neg (fun he => h he.symm)]
      · rw [if_neg hk]
        unfold lookupAssoc
        by_cases hk2 : k3 = k2
        · rw [if_pos hk2, if_pos hk2]
        · rw [if_neg hk2, if_neg hk2]
          exact ih

theorem lookupAssoc_assocSet_eq {d : List (Str × List Str)} {k : Str} {w : List Str}
    (v : List Str) (h : lookupAssoc d k = some w) :
    lookupAssoc (assocSet d k v) k = some v := by
  induction d with
  | nil => simp [lookupAssoc] at h
  | cons hd rest ih =>
      obtain ⟨k3, u⟩ := hd
      unfold lookupAssoc at h
      unfold assocSet
      by_cases hk : k3 = k
      · rw [if_pos hk]
        unfold lookupAssoc
        rw [if_pos hk]
      · rw [if_neg hk]
        unfold lookupAssoc
        rw [if_neg hk]
        rw [if_neg hk] at h
        exact ih h

/-!  Claim theorems. -/

/-- C1: every course-code string of the shape letters-then-digits decomposes
under the parsing regular expression `^([A-Z]+)(\d+)$` into the (subject,
number) pair whose concatenation is the original code, and that
decomposition is unique. -/
theorem C1_decompose_roundtrip (a b : Str)
    (ha1 : a ≠ []) (ha2 : a.all isUpperAZ = true)
    (hb1 : b ≠ []) (hb2 : b.all isDigit09 = true) :
    matchCourseCode (a ++ b) = some (a, b) ∧
    ∀ a2 b2 : Str, a2 ≠ [] → a2.all isUpperAZ = true → b2 ≠ [] →
      b2.all isDigit09 = true → a2 ++ b2 = a ++ b → a2 = a ∧ b2 = b := by
  refine ⟨matchCourseCode_append ha1 ha2 hb1 hb2, ?_⟩
  intro a2 b2 h1 h2 h3 h4 heq
  have e1 := matchCourseCode_append ha1 ha2 hb1 hb2
  have e2 := matchCourseCode_append h1 h2 h3 h4
  rw [heq, e1] at e2
  simp only [Option.some.injEq, Prod.mk.injEq] at e2
  exact ⟨e2.1.symm, e2.2.symm⟩

/-- Witness for C1 at the concrete code "CS124". -/
theorem C1_decompose_roundtrip_witness :
    matchCourseCode ("CS".data ++ "124".data) = some ("CS".data, "124".data) :=
  (C1_decompose_roundtrip "CS".data "124".data (by decide) (by decide) (by decide)
    (by decide)).1

/-- C2: `applyClassFilter` combines the two dropdown values
deterministically: both nonempty gives the concatenation, a subject without
a number gives `"All"`, and no subject gives `"All"`. -/
theorem C2_applyClassFilter_combination (s n : Str) :
    (s ≠ [] → n ≠ [] → (applyClassFilter s n).combined = s ++ n) ∧
    (s ≠ [] → n = [] → (applyClassFilter s n).combined = "All".data) ∧
    (s = [] → (applyClassFilter s n).combined = "All".data) := by
  refine ⟨fun h1 h2 => ?_, fun h1 h2 => ?_, fun h1 => ?_⟩
  · unfold applyClassFilter
    rw [if_pos (by simp [jsTruthy, List.isEmpty_iff, h1, h2])]
  · subst h2
    unfold applyClassFilter
    rw [if_neg (by simp [jsTruthy]), if_pos (by simp [jsTruthy, List.isEmpty_iff, h1])]
  · subst h1
    unfold applyClassFilter
    rw [if_neg (by simp [jsTruthy]), if_neg (by simp [jsTruthy])]

/-- Witness for C2 at the three rows of the spec's truth table. -/
theorem C2_applyClassFilter_combination_witness :
    (applyClassFilter "CS".data "124".data).combined = "CS".data ++ "124".data ∧
    (applyClassFilter "CS".data "".data).combined = "All".data ∧
    (applyClassFilter "".data "124".data).combined = "All".data :=
  ⟨(C2_applyClassFilter_combination "CS".data "124".data).1 (by decide) (by decide),
   (C2_applyClassFilter_combination "CS".data "".data).2.1 (by decide) rfl,
   (C2_applyClassFilter_combination "".data "124".data).2.2 rfl⟩

/-- C5 as stated is false: with no subject selected and a number value
present, `handleNumberChange` submits the combined value `"All"`, not the
concatenation `"" + "124" = "124"` the claim's otherwise-branch requires. -/
theorem C5_counterexample :
    (handleNumberChange "".data "124".data).combined = "All".data ∧
    (handleNumberChange "".data "124".data).combined ≠ "".data ++ "124".data := by
  decide

/-- C5 amended: no number but a subject gives `"All"` and submits; a number
and a subject give the concatenation and submit; no subject gives `"All"`
and submits (this last case replaces the claim's otherwise-branch). -/
theorem C5_handleNumberChange (s n : Str) :
    (n = [] → s ≠ [] → handleNumberChange s n = ⟨"All".data, true⟩) ∧
    (n ≠ [] → s ≠ [] → handleNumberChange s n = ⟨s ++ n, true⟩) ∧
    (s = [] → handleNumberChange s n = ⟨"All".data, true⟩) := by
  refine ⟨fun h1 h2 => ?_, fun h1 h2 => ?_, fun h1 => ?_⟩
  · subst h1
    unfold handleNumberChange
    rw [if_pos (by simp [jsTruthy, List.isEmpty_iff, h2])]
  · unfold handleNumberChange
    rw [if_neg (by simp [jsTruthy, List.isEmpty_iff, h1])]
    unfold applyClassFilter
    rw [if_pos (by simp [jsTruthy, List.isEmpty_iff, h1, h2])]
  · subst h1
    unfold handleNumberChange
    rw [if_neg (by simp [jsTruthy])]
    unfold applyClassFilter
    rw [if_neg (by simp [jsTruthy]), if_neg (by simp [jsTruthy])]

/-- Witness for the amended C5 at one concrete state per case. -/
theorem C5_handleNumberChange_witness :
    handleNumberChange "CS".data "".data = ⟨"All".data, true⟩ ∧
    handleNumberChange "CS".data "124".data = ⟨"CS".data ++ "124".data, true⟩ ∧
    handleNumberChange "".data "124".data = ⟨"All".data, true⟩ :=
  ⟨(C5_handleNumberChange "CS".data "".data).1 rfl (by decide),
   (C5_handleNumberChange "CS".data "124".data).2.1 (by decide) (by decide),
   (C5_handleNumberChange "".data "124".data).2.2 rfl⟩

/-- C3 as stated is false: `parseInt` yields IEEE-754 doubles, so the digit
strings "9007199254740993" (2^53 + 1) and "9007199254740992" (2^53) both
parse to 2^53, the comparator ties, and the stable sort keeps the stored
order — the program presents ["…993","…992"], which is not ascending by the
exact numeric value of the digit strings. -/
theorem C3_counterexample :
    presentedNumbers
        ("CS9007199254740993".data :: "CS9007199254740992".data :: []) "CS".data
      = "9007199254740993".data :: "9007199254740992".data :: [] ∧
    ¬ (presentedNumbers
        ("CS9007199254740993".data :: "CS9007199254740992".data :: [])
        "CS".data).Pairwise digitLe := by
  have hEq : presentedNumbers
      ("CS9007199254740993".data :: "CS9007199254740992".data :: []) "CS".data
      = "9007199254740993".data :: "9007199254740992".data :: [] := by decide
  refine ⟨hEq, fun hpw => ?_⟩
  rw [hEq] at hpw
  have hrel := (List.pairwise_cons.mp hpw).1 _ (List.mem_cons_self _ _)
  exact absurd hrel (by decide)

/-- C3 amended: the presented number strings are always in ascending order
of the binary64 value `parseInt` gives them (ties keep stored order), and
whenever every presented digit string's value is below 2^53 — hence exactly
representable — they are in ascending order of the exact numeric value of
the digit string; the spec's example yields the numeric order
["9","10","124"], not the lexicographic one. -/
theorem C3_numbers_sorted_numerically :
    (∀ (classes : List Str) (subject : Str),
      (presentedNumbers classes subject).Pairwise NumLe) ∧
    (∀ (classes : List Str) (subject : Str),
      (∀ n ∈ presentedNumbers classes subject, digitsToNat n < 2 ^ 53) →
      (presentedNumbers classes subject).Pairwise digitLe) ∧
    presentedNumbers ("CS9".data :: "CS124".data :: "CS10".data :: []) "CS".data
      = "9".data :: "10".data :: "124".data :: [] := by
  refine ⟨?_, ?_, by decide⟩
  · intro classes subject
    unfold presentedNumbers
    by_cases hsub : jsTruthy subject
    · rw [if_pos hsub]
      cases hji : jsIndex (parseClasses classes).classesBySubject subject with
      | own ns => exact List.sorted_insertionSort NumLe ns
      | inherited => exact List.Pairwise.nil
      | undef => exact List.Pairwise.nil
    · rw [if_neg hsub]
      exact List.Pairwise.nil
  · intro classes subject hsmall
    unfold presentedNumbers at hsmall ⊢
    by_cases hsub : jsTruthy subject
    · rw [if_pos hsub] at hsmall ⊢
      cases hji : jsIndex (parseClasses classes).classesBySubject subject with
      | own ns =>
          rw [hji] at hsmall
          have hvals := parseClasses_values (jsIndex_own hji)
          have hsorted : (sortNumbers ns).Pairwise NumLe :=
            List.sorted_insertionSort NumLe ns
          refine hsorted.imp_of_mem ?_
          intro a b ha hb hab
          have ha2 : a ∈ ns := by simpa [sortNumbers] using ha
          have hb2 : b ∈ ns := by simpa [sortNumbers] using hb
          have pa := hvals a ha2
          have pb := hvals b hb2
          unfold NumLe at hab
          rw [jsKey_digits pa.1 pa.2, jsKey_digits pb.1 pb.2,
              jsDouble_small (hsmall a ha), jsDouble_small (hsmall b hb)] at hab
          unfold digitLe
          exact_mod_cast hab
      | inherited => exact List.Pairwise.nil
      | undef => exact List.Pairwise.nil
    · rw [if_neg hsub]
      exact List.Pairwise.nil

/-- Witness for the amended C3: the below-2^53 hypothesis discharged on the
spec's example catalog gives exact numeric sortedness. -/
theorem C3_numbers_sorted_numerically_witness :
    (presentedNumbers ("CS9".data :: "CS124".data :: "CS10".data :: [])
      "CS".data).Pairwise digitLe :=
  C3_numbers_sorted_numerically.2.1
    ("CS9".data :: "CS124".data :: "CS10".data :: []) "CS".data (by decide)

/-- C4: the subjects sequence of the index built from a flat list of codes
has no duplicates and is sorted lexicographically ascending (the `≤` here is
the lexicographic order on character lists, matching the default JavaScript
string comparator on uppercase ASCII); the spec's example yields
["CS","MATH"]. -/
theorem C4_subjects_nodup_sorted :
    (∀ classes : List Str, (parseClasses classes).subjects.Nodup ∧
      List.Sorted (· ≤ ·) (parseClasses classes).subjects) ∧
    (parseClasses ("CS225".data :: "MATH241".data :: "CS124".data :: [])).subjects
      = "CS".data :: "MATH".data :: [] := by
  constructor
  · intro classes
    constructor
    · have hnd := parseClasses_foldl_nodup classes ([], []) (by simp)
      exact (List.perm_insertionSort (· ≤ ·) _).nodup_iff.mpr hnd
    · exact List.sorted_insertionSort (· ≤ ·) _
  · decide

/-- C6 as stated is false on one point: a non-matching code is indeed
dropped from the index, but its text is not always absent from every
subject's number list — the all-digit code "124" does not match, yet the
string "124" appears in the numbers of "CS" as the suffix of the matching
code "CS124". -/
theorem C6_counterexample :
    matchCourseCode "124".data = none ∧
    lookupAssoc (parseClasses ("CS124".data :: "124".data :: [])).classesBySubject
      "CS".data = some ("124".data :: []) := by
  decide

/-- C6 amended: a code that fails the pattern contributes nothing at all —
the index built with the code present equals the index built with it
removed (no error, no subject, no number entry); coincidence of its text
with another code's digit suffix is the only way it can appear. -/
theorem C6_malformed_dropped (pre post : List Str) (c : Str)
    (h : matchCourseCode c = none) :
    parseClasses (pre ++ c :: post) = parseClasses (pre ++ post) := by
  have hfold : ∀ acc : List Str × List (Str × List Str),
      (pre ++ c :: post).foldl parseClassesStep acc
        = (pre ++ post).foldl parseClassesStep acc := by
    intro acc
    rw [List.foldl_append, List.foldl_append, List.foldl_cons,
        show ∀ A : List Str × List (Str × List Str), parseClassesStep A c = A from
          fun A => by simp [parseClassesStep, h]]
  simp only [parseClasses]
  rw [hfold]

/-- Witness for the amended C6: the malformed code "cs9" is dropped. -/
theorem C6_malformed_dropped_witness :
    parseClasses (("CS124".data :: []) ++ "cs9".data :: [])
      = parseClasses (("CS124".data :: []) ++ []) :=
  C6_malformed_dropped ("CS124".data :: []) [] "cs9".data (by decide)

/-- C7 as stated is false: in the structured variant the dropdown rebuild
sorts the stored per-subject array in place, so a stored sequence that is
not already numerically sorted is reordered — the index is mutated after
initialization. -/
theorem C7_counterexample :
    updateNumberDropdownDict (("CS".data, "124".data :: "9".data :: []) :: []) "CS".data
      = ("CS".data, "9".data :: "124".data :: []) :: [] ∧
    updateNumberDropdownDict (("CS".data, "124".data :: "9".data :: []) :: []) "CS".data
      ≠ ("CS".data, "124".data :: "9".data :: []) :: [] := by
  decide

/-- C7 amended: dropdown rebuilds never add or remove index entries — the
key sequence is unchanged, subjects other than the selected one keep their
number sequences, and the selected subject's sequence is preserved as a
multiset (it is re-sorted in place numerically, a permutation). -/
theorem C7_index_mutation_bounded (d : List (Str × List Str)) (subj : Str) :
    keysOf (updateNumberDropdownDict d subj) = keysOf d ∧
    (∀ k, k ≠ subj → lookupAssoc (updateNumberDropdownDict d subj) k = lookupAssoc d k) ∧
    (∀ k ns, lookupAssoc d k = some ns →
      ∃ ns2, lookupAssoc (updateNumberDropdownDict d subj) k = some ns2 ∧ ns2.Perm ns) := by
  unfold updateNumberDropdownDict
  by_cases ht : jsTruthy subj
  · rw [if_pos ht]
    cases hl : lookupAssoc d subj with
    | none => exact ⟨rfl, fun k hk => rfl, fun k ns h => ⟨ns, h, List.Perm.refl ns⟩⟩
    | some ns0 =>
        refine ⟨keysOf_assocSet d subj _, fun k hk => lookupAssoc_assocSet_ne hk, ?_⟩
        intro k ns h
        by_cases hk : k = subj
        · subst hk
          rw [hl] at h
          injection h with h2
          subst h2
          exact ⟨sortNumbers ns0, lookupAssoc_assocSet_eq _ hl,
            List.perm_insertionSort NumLe ns0⟩
        · exact ⟨ns, by rw [lookupAssoc_assocSet_ne hk]; exact h, List.Perm.refl ns⟩
  · rw [if_neg ht]
    exact ⟨rfl, fun k hk => rfl, fun k ns h => ⟨ns, h, List.Perm.refl ns⟩⟩

/-- Witness for the amended C7 on a two-subject dictionary. -/
theorem C7_index_mutation_bounded_witness :
    keysOf (updateNumberDropdownDict
        (("CS".data, "124".data :: "9".data :: []) :: ("MATH".data, "241".data :: []) :: [])
        "CS".data)
      = keysOf (("CS".data, "124".data :: "9".data :: []) ::
          ("MATH".data, "241".data :: []) :: []) ∧
    lookupAssoc (updateNumberDropdownDict
        (("CS".data, "124".data :: "9".data :: []) :: ("MATH".data, "241".data :: []) :: [])
        "CS".data) "MATH".data
      = lookupAssoc (("CS".data, "124".data :: "9".data :: []) ::
          ("MATH".data, "241".data :: []) :: []) "MATH".data ∧
    ∃ ns2, lookupAssoc (updateNumberDropdownDict
        (("CS".data, "124".data :: "9".data :: []) :: ("MATH".data, "241".data :: []) :: [])
        "CS".data) "CS".data = some ns2 ∧ ns2.Perm ("124".data :: "9".data :: []) :=
  ⟨(C7_index_mutation_bounded
      (("CS".data, "124".data :: "9".data :: []) :: ("MATH".data, "241".data :: []) :: [])
      "CS".data).1,
   (C7_index_mutation_bounded
      (("CS".data, "124".data :: "9".data :: []) :: ("MATH".data, "241".data :: []) :: [])
      "CS".data).2.1 "MATH".data (by decide),
   (C7_index_mutation_bounded
      (("CS".data, "124".data :: "9".data :: []) :: ("MATH".data, "241".data :: []) :: [])
      "CS".data).2.2 "CS".data ("124".data :: "9".data :: []) (by decide)⟩

/-- C8: `loadMore` increments the page counter by exactly one and requests
that page; on failure the increment stays, the container and the control's
visibility are untouched and the failure only reaches the console log; on
success the fragment is appended (append-only) and, starting from a visible
control, the control ends hidden exactly when `has_more` is false. -/
theorem C8_loadMore (st : NotesPageState) (response : Option FetchData) :
    (loadMore st response).2 = st.currentPage + 1 ∧
    (loadMore st response).1.currentPage = st.currentPage + 1 ∧
    (response = none →
      (loadMore st response).1.container = st.container ∧
      (loadMore st response).1.loadMoreVisible = st.loadMoreVisible ∧
      (loadMore st response).1.consoleLog
        = st.consoleLog ++ ["Failed to load more notes".data]) ∧
    (∀ d, response = some d →
      (loadMore st response).1.container = st.container ++ [d.html] ∧
      (loadMore st response).1.consoleLog = st.consoleLog ∧
      (st.loadMoreVisible = true →
        ((loadMore st response).1.loadMoreVisible = false ↔ d.hasMore = false))) := by
  cases response with
  | none =>
      refine ⟨rfl, rfl, fun _ => ⟨rfl, rfl, rfl⟩, fun d hd => by simp at hd⟩
  | some d0 =>
      refine ⟨?_, ?_, fun h => by simp at h, fun d hd => ?_⟩
      · unfold loadMore
        cases hm : d0.hasMore <;> simp [hm]
      · unfold loadMore
        cases hm : d0.hasMore <;> simp [hm]
      · injection hd with hd2
        subst hd2
        unfold loadMore
        cases hm : d0.hasMore <;> simp [hm]

/-- Witness for C8 at a concrete state, one failing and one succeeding
call. -/
theorem C8_loadMore_witness :
    (loadMore ⟨1, [], true, []⟩ none).1.container = [] ∧
    ((loadMore ⟨1, [], true, []⟩ (some ⟨"x".data, false⟩)).1.loadMoreVisible = false
      ↔ false = false) :=
  ⟨((C8_loadMore ⟨1, [], true, []⟩ none).2.2.1 rfl).1,
   ((C8_loadMore ⟨1, [], true, []⟩ (some ⟨"x".data, false⟩)).2.2.2
      ⟨"x".data, false⟩ rfl).2.2 rfl⟩

/-- C9 as stated is false: a selected subject absent from the dictionary
but naming an `Object.prototype` member — here "toString" — resolves to a
truthy inherited function, so the `|| []` fallback does not apply and
`numbers.sort` throws a TypeError; the handler neither completes without
error nor produces the sentinel-only dropdown. -/
theorem C9_counterexample :
    updateNumberDropdownOpts (("CS".data, "124".data :: []) :: []) "toString".data
      true none = none ∧
    updateNumberDropdownOpts (("CS".data, "124".data :: []) :: []) "toString".data
      true none ≠ some (allNumbersSentinel :: []) := by
  decide

/-- C9 amended: a selected subject that is not an own key of the dictionary
and not the name of an `Object.prototype` member leaves the number dropdown
holding only the "All Numbers" sentinel, with no error; an absent selected
subject that does name an `Object.prototype` member makes the handler throw
(the inherited value is truthy and has no `sort`). -/
theorem C9_unknown_subject (d : List (Str × List Str)) (s : Str) (p : Bool)
    (f : Option Str) (h : lookupAssoc d s = none) :
    (s ∉ objectPrototypeKeys →
      updateNumberDropdownOpts d s p f = some (allNumbersSentinel :: [])) ∧
    (s ∈ objectPrototypeKeys → jsTruthy s = true →
      updateNumberDropdownOpts d s p f = none) := by
  constructor
  · intro hnp
    by_cases ht : jsTruthy s <;>
      simp [updateNumberDropdownOpts, jsIndex, h, hnp, ht, sortNumbers]
  · intro hp ht
    simp [updateNumberDropdownOpts, jsIndex, h, hp, ht]

/-- Witness for the amended C9: subject "MATH" absent from a "CS"-only
dictionary gives the sentinel-only dropdown; absent subject "valueOf"
throws. -/
theorem C9_unknown_subject_witness :
    updateNumberDropdownOpts (("CS".data, "124".data :: []) :: []) "MATH".data true
      (some "CS124".data) = some (allNumbersSentinel :: []) ∧
    updateNumberDropdownOpts (("CS".data, "124".data :: []) :: []) "valueOf".data
      false none = none :=
  ⟨(C9_unknown_subject (("CS".data, "124".data :: []) :: []) "MATH".data true
      (some "CS124".data) (by decide)).1 (by decide),
   (C9_unknown_subject (("CS".data, "124".data :: []) :: []) "valueOf".data false
      none (by decide)).2 (by decide) (by decide)⟩

/-- C10: with every data attribute absent, initialization substitutes the
fixed defaults — page 1, empty class list (and empty catalog and subject
list in the structured variant), filter "All" — and completes without
error in both variants. -/
theorem C10_defaults :
    domContentLoadedStatic ⟨none, none, none⟩
      = some ⟨some 1, [], "All".data⟩ ∧
    domContentLoadedStructured ⟨none, none, none, none, none⟩
      = some ⟨some 1, [], [], [], "All".data⟩ := by
  constructor
  · rfl
  · rfl
